import Mathlib

/-!
Shallow embedding of the Gems_backend order/cart/auth routes.

The store state (Mongo collections) is modelled as lists of records; each
route handler becomes a pure function from the state (plus request data)
to a new state and an HTTP-level result.  Numbers: prices are rationals,
quantities are naturals, stock is an integer (Mongo `$inc` can in
principle drive it below zero, so we do not bake non-negativity in).
-/

namespace GemsBackend

/-- A catalog gem (models/Gem.js): the fields the order/cart routes read. -/
structure Gem where
  id : Nat
  name : String
  price : ℚ
  stock : ℤ
  availability : Bool
deriving Repr, DecidableEq

/-- A cart entry (models/CartItem.js): one (user, gem) pair with a quantity. -/
structure CartItem where
  userId : Nat
  gemId : Nat
  quantity : Nat
deriving Repr, DecidableEq

/-- Order status enum (models/Order.js `status` field). -/
inductive OrderStatus where
  | pending
  | confirmed
  | processing
  | shipped
  | delivered
  | cancelled
deriving Repr, DecidableEq

/-- An order header (models/Order.js): `id` is the Mongo `_id`, `orderId`
the generated human-readable identifier. -/
structure Order where
  id : Nat
  orderId : String
  userId : Nat
  status : OrderStatus
  total : ℚ
  createdAt : Nat
deriving Repr, DecidableEq

/-- An order line (models/OrderItem.js): references the owning order by
its Mongo `_id`. -/
structure OrderItem where
  orderId : Nat
  gemId : Nat
  quantity : Nat
  price : ℚ
deriving Repr, DecidableEq

/-- The database state touched by the order and cart routes. -/
structure State where
  gems : List Gem
  cartItems : List CartItem
  orders : List Order
  orderItems : List OrderItem
deriving Repr, DecidableEq

/-- One request line of POST /api/orders (`items[*]`). -/
structure ItemRequest where
  gemId : Nat
  quantity : Nat
  price : ℚ
deriving Repr, DecidableEq

/-- An error reply: HTTP status plus the `message` field (every error body
also carries `success: false`). -/
structure ErrorResponse where
  status : Nat
  message : String
deriving Repr, DecidableEq

/-- The `data` object of a successful POST /api/orders reply. -/
structure OrderSuccess where
  orderId : String
  status : OrderStatus
  total : ℚ
  createdAt : Nat
deriving Repr, DecidableEq

/-- Result of POST /api/orders. -/
inductive OrderResult where
  | failure (e : ErrorResponse)
  | success (resp : OrderSuccess)
deriving Repr, DecidableEq

/-- Result of PUT /api/orders/:orderId/cancel (success carries the message). -/
inductive CancelResult where
  | failure (e : ErrorResponse)
  | success (message : String)
deriving Repr, DecidableEq

/-- Result of GET /api/orders/:orderId (success carries the order found). -/
inductive GetResult where
  | failure (e : ErrorResponse)
  | success (order : Order)
deriving Repr, DecidableEq

/-- Result of POST /api/cart/add (success carries the saved cart item). -/
inductive CartResult where
  | failure (e : ErrorResponse)
  | success (item : CartItem)
deriving Repr, DecidableEq

/-- One primitive database write performed by the place-order handler, in
source order: `order.save()`, `OrderItem.insertMany`, per-line
`Gem.findByIdAndUpdate` `$inc` of stock, `CartItem.deleteMany`. -/
inductive Mutation where
  | saveOrder (o : Order)
  | insertOrderItems (ls : List OrderItem)
  | decStock (gemId : Nat) (quantity : Nat)
  | clearCart (userId : Nat)
deriving Repr, DecidableEq

/-- `Gem.findByIdAndUpdate(gemId, { $inc: { stock: delta } })`: adds
`delta` to the stock of the gem with the given `_id` (no-op when absent). -/
def adjustGemStock (gems : List Gem) (gemId : Nat) (delta : ℤ) : List Gem :=
  gems.map fun g => if g.id = gemId then { g with stock := g.stock + delta } else g

/-- Semantics of one primitive write against the state. -/
def applyMutation (s : State) : Mutation → State
  | .saveOrder o => { s with orders := s.orders ++ [o] }
  | .insertOrderItems ls => { s with orderItems := s.orderItems ++ ls }
  | .decStock gid q => { s with gems := adjustGemStock s.gems gid (-(q : ℤ)) }
  | .clearCart uid => { s with cartItems := s.cartItems.filter fun c => c.userId != uid }

/-- The stock-availability loop of POST /api/orders: for each request line
look the gem up in the fetched list; fail with the per-gem message when
`!gem.availability || gem.stock < item.quantity`.  A missing gem at this
point would be a thrown TypeError in the source, reported as the 500
catch-all. -/
def checkStock (gems : List Gem) : List ItemRequest → Option ErrorResponse
  | [] => none
  | item :: rest =>
    match gems.find? (fun g => g.id == item.gemId) with
    | none => some ⟨500, "Server error during order creation"⟩
    | some gem =>
      if !gem.availability || gem.stock < (item.quantity : ℤ) then
        some ⟨400, "Insufficient stock for " ++ gem.name⟩
      else
        checkStock gems rest

/-- `items.reduce((sum, item) => sum + item.price * item.quantity, 0)`. -/
def orderTotal (items : List ItemRequest) : ℚ :=
  items.foldl (fun sum item => sum + item.price * (item.quantity : ℚ)) 0

/-- POST /api/orders.  `newId` stands for the fresh Mongo `_id`,
`newOrderId` for the generated human-readable identifier, `now` for the
creation timestamp.  Returns the final state, the list of primitive
writes performed (empty on the failure paths, which all return before
any write), and the HTTP result. -/
def createOrder (s : State) (userId : Nat) (items : List ItemRequest)
    (newId : Nat) (newOrderId : String) (now : Nat) :
    State × List Mutation × OrderResult :=
  let gemIds := items.map (·.gemId)
  let gems := s.gems.filter fun g => gemIds.contains g.id
  if gems.length ≠ items.length then
    (s, [], .failure ⟨400, "One or more gems not found"⟩)
  else
    match checkStock gems items with
    | some e => (s, [], .failure e)
    | none =>
      let total := orderTotal items
      let order : Order := ⟨newId, newOrderId, userId, .pending, total, now⟩
      let s1 : State := { s with orders := s.orders ++ [order] }
      let newItems : List OrderItem :=
        items.map fun it => ⟨order.id, it.gemId, it.quantity, it.price⟩
      let s2 : State := { s1 with orderItems := s1.orderItems ++ newItems }
      let s3 : State := items.foldl
        (fun st it => { st with gems := adjustGemStock st.gems it.gemId (-(it.quantity : ℤ)) }) s2
      let s4 : State := { s3 with cartItems := s3.cartItems.filter fun c => c.userId != userId }
      (s4,
        .saveOrder order :: .insertOrderItems newItems ::
          (items.map fun it => .decStock it.gemId it.quantity) ++ [.clearCart userId],
        .success ⟨order.orderId, order.status, order.total, order.createdAt⟩)

/-- `Order.findOne({ orderId, userId })`. -/
def findOrder (s : State) (userId : Nat) (orderId : String) : Option Order :=
  s.orders.find? fun o => o.orderId == orderId && o.userId == userId

/-- GET /api/orders/:orderId. -/
def getOrder (s : State) (userId : Nat) (orderId : String) : GetResult :=
  match findOrder s userId orderId with
  | none => .failure ⟨404, "Order not found"⟩
  | some order => .success order

/-- PUT /api/orders/:orderId/cancel: owner-scoped lookup, the two status
guards, then the status update followed by per-line stock restoration
driven by the persisted OrderItems. -/
def cancelOrder (s : State) (userId : Nat) (orderId : String) :
    State × CancelResult :=
  match findOrder s userId orderId with
  | none => (s, .failure ⟨404, "Order not found"⟩)
  | some order =>
    if order.status = .cancelled then
      (s, .failure ⟨400, "Order is already cancelled"⟩)
    else if order.status = .shipped ∨ order.status = .delivered then
      (s, .failure ⟨400, "Cannot cancel order that has been shipped or delivered"⟩)
    else
      let s1 : State := { s with orders := s.orders.map fun o =>
        if o.id = order.id then { o with status := .cancelled } else o }
      let restoreItems := s.orderItems.filter fun it => it.orderId == order.id
      let gems2 := restoreItems.foldl
        (fun gs it => adjustGemStock gs it.gemId (it.quantity : ℤ)) s1.gems
      ({ s1 with gems := gems2 }, .success "Order cancelled successfully")

/-- `CartItem.findOne` followed by `save()`: update the first list entry
satisfying the predicate, leaving the rest untouched. -/
def updateFirst {α : Type} (p : α → Bool) (f : α → α) : List α → List α
  | [] => []
  | c :: rest => if p c then f c :: rest else c :: updateFirst p f rest

/-- POST /api/cart/add: gem-existence check (404), availability/stock
check (400), then increment-or-create on the (user, gem) cart entry. -/
def addToCart (s : State) (userId gemId quantity : Nat) :
    State × CartResult :=
  match s.gems.find? (fun g => g.id == gemId) with
  | none => (s, .failure ⟨404, "Gem not found"⟩)
  | some gem =>
    if !gem.availability || gem.stock < (quantity : ℤ) then
      (s, .failure ⟨400, "Gem is not available or insufficient stock"⟩)
    else
      match s.cartItems.find? (fun c => c.userId == userId && c.gemId == gemId) with
      | some c0 =>
        let newCart := updateFirst
          (fun c => c.userId == userId && c.gemId == gemId)
          (fun c => { c with quantity := c.quantity + quantity }) s.cartItems
        ({ s with cartItems := newCart },
          .success { c0 with quantity := c0.quantity + quantity })
      | none =>
        ({ s with cartItems := s.cartItems ++ [⟨userId, gemId, quantity⟩] },
          .success ⟨userId, gemId, quantity⟩)

/-- A user record as the login route reads it (models/User.js): `password`
is the stored (hashed) password. -/
structure User where
  id : Nat
  email : String
  password : String
deriving Repr, DecidableEq

/-- Everything the login route sends back: HTTP status, `success` flag,
`message`, and the optional `token` / user payload. -/
structure AuthResponse where
  status : Nat
  success : Bool
  message : String
  token : Option String
  userId : Option Nat
deriving Repr, DecidableEq

/-- POST /api/auth/login: `User.findOne({ email })`, then
`user.comparePassword(password)`.  The bcrypt comparison and the JWT
generation are external collaborators, abstracted as the `compare` and
`genToken` parameters. -/
def login (users : List User) (compare : String → String → Bool)
    (genToken : Nat → String) (email password : String) : AuthResponse :=
  match users.find? (fun u => u.email == email) with
  | none => ⟨401, false, "Invalid credentials", none, none⟩
  | some user =>
    if compare password user.password then
      ⟨200, true, "Login successful", some (genToken user.id), some user.id⟩
    else
      ⟨401, false, "Invalid credentials", none, none⟩

/-- Pointwise stock change applied between two operations (models any
unrelated stock traffic: other sales, restocks, admin edits). -/
def adjustStocks (s : State) (δ : Nat → ℤ) : State :=
  { s with gems := s.gems.map fun g => { g with stock := g.stock + δ g.id } }

/-- The stock of the gem with the given id, when present. -/
def stockOf (s : State) (gid : Nat) : Option ℤ :=
  (s.gems.find? fun g => g.id == gid).map (·.stock)

/-- Well-formed catalog: Mongo `_id`s are unique. -/
def gemsWF (s : State) : Prop := (s.gems.map (·.id)).Nodup

/-- Cart invariant: at most one CartItem per (user, gem) pair. -/
def cartWF (l : List CartItem) : Prop :=
  (l.map fun c => (c.userId, c.gemId)).Nodup

end GemsBackend

namespace GemsBackend

/-! ## Helper lemmas -/

theorem foldl_add_sum {α : Type} (f : α → ℚ) (l : List α) (a : ℚ) :
    l.foldl (fun acc x => acc + f x) a = a + (l.map f).sum := by
  induction l generalizing a with
  | nil => simp
  | cons x xs ih => simp [ih, add_assoc]

theorem orderTotal_eq_sum (items : List ItemRequest) :
    orderTotal items = (items.map fun it => it.price * (it.quantity : ℚ)).sum := by
  simpa [orderTotal] using
    foldl_add_sum (fun it : ItemRequest => it.price * (it.quantity : ℚ)) items 0

theorem foldl_decStock (l : List ItemRequest) (s : State) :
    l.foldl (fun st it =>
        { st with gems := adjustGemStock st.gems it.gemId (-(it.quantity : ℤ)) }) s
      = { s with gems := s.gems.map fun g =>
          { g with stock := g.stock +
              (l.map fun it => if it.gemId = g.id then -(it.quantity : ℤ) else 0).sum } } := by
  induction l generalizing s with
  | nil =>
    simp only [List.foldl_nil, List.map_nil, List.sum_nil, add_zero]
    cases s with
    | mk gs cs os ois => simp [List.map_id]
  | cons a t ih =>
    rw [List.foldl_cons, ih]
    simp only [State.mk.injEq, and_true, true_and]
    unfold adjustGemStock
    rw [List.map_map]
    apply List.map_congr_left
    intro g _
    by_cases h : g.id = a.gemId
    · simp [Function.comp, h, Gem.mk.injEq, add_assoc]
    · have h2 : a.gemId ≠ g.id := fun he => h he.symm
      simp [Function.comp, h, h2]

theorem foldl_incStock (l : List OrderItem) (gems : List Gem) :
    l.foldl (fun gs it => adjustGemStock gs it.gemId (it.quantity : ℤ)) gems
      = gems.map fun g =>
          { g with stock := g.stock +
              (l.map fun it => if it.gemId = g.id then (it.quantity : ℤ) else 0).sum } := by
  induction l generalizing gems with
  | nil =>
    simp only [List.foldl_nil, List.map_nil, List.sum_nil, add_zero]
    conv_lhs => rw [← List.map_id gems]
    exact List.map_congr_left fun g _ => rfl
  | cons a t ih =>
    rw [List.foldl_cons, ih]
    unfold adjustGemStock
    rw [List.map_map]
    apply List.map_congr_left
    intro g _
    by_cases h : g.id = a.gemId
    · simp [Function.comp, h, Gem.mk.injEq, add_assoc]
    · have h2 : a.gemId ≠ g.id := fun he => h he.symm
      simp [Function.comp, h, h2]


theorem find?_map_id_preserving (gems : List Gem) (F : Gem → Gem)
    (hF : ∀ g, (F g).id = g.id) (gid : Nat) :
    (gems.map F).find? (fun g => g.id == gid)
      = (gems.find? fun g => g.id == gid).map F := by
  induction gems with
  | nil => rfl
  | cons g t ih =>
    cases hb : (g.id == gid : Bool) with
    | true => simp [List.find?_cons, hF, hb]
    | false => simp [List.find?_cons, hF, hb, ih]

theorem find?_id_of_mem_nodup (gems : List Gem)
    (hnd : (gems.map (·.id)).Nodup) (g : Gem) (hg : g ∈ gems) :
    gems.find? (fun x => x.id == g.id) = some g := by
  induction gems with
  | nil => cases hg
  | cons h t ih =>
    rw [List.map_cons, List.nodup_cons] at hnd
    rcases List.mem_cons.mp hg with rfl | hgt
    · simp [List.find?_cons]
    · have hne : h.id ≠ g.id := fun he => hnd.1 (he ▸ List.mem_map_of_mem (·.id) hgt)
      simp [List.find?_cons, beq_eq_false_iff_ne.mpr hne, ih hnd.2 hgt]

theorem filter_contains_length_le (gems : List Gem)
    (hnd : (gems.map (·.id)).Nodup) (ids : List Nat) :
    (gems.filter fun g => ids.contains g.id).length ≤ ids.dedup.length := by
  have hsub : (gems.filter fun g => ids.contains g.id).Sublist gems := List.filter_sublist _
  have hlnd : ((gems.filter fun g => ids.contains g.id).map (·.id)).Nodup :=
    (hsub.map (·.id)).nodup hnd
  have hss : (gems.filter fun g => ids.contains g.id).map (·.id) ⊆ ids.dedup := by
    intro x hx
    rcases List.mem_map.mp hx with ⟨g, hgmem, rfl⟩
    exact List.mem_dedup.mpr (List.elem_iff.mp (List.mem_filter.mp hgmem).2)
  have := (hlnd.subperm hss).length_le
  simpa [List.length_map] using this

theorem dedup_length_lt_of_not_nodup (ids : List Nat) (h : ¬ ids.Nodup) :
    ids.dedup.length < ids.length := by
  have hsub := List.dedup_sublist ids
  rcases lt_or_eq_of_le hsub.length_le with hlt | heq
  · exact hlt
  · exact absurd (hsub.eq_of_length heq ▸ List.nodup_dedup ids) h

theorem filter_contains_length_lt (gems : List Gem) (ids : List Nat)
    (hnd : (gems.map (·.id)).Nodup) (a : Nat) (ha : a ∈ ids)
    (hnot : ∀ g ∈ gems, g.id ≠ a) :
    (gems.filter fun g => ids.contains g.id).length < ids.length := by
  have hsub : (gems.filter fun g => ids.contains g.id).Sublist gems := List.filter_sublist _
  have hlnd : ((gems.filter fun g => ids.contains g.id).map (·.id)).Nodup :=
    (hsub.map (·.id)).nodup hnd
  have hadedup : a ∈ ids.dedup := List.mem_dedup.mpr ha
  have hss : (gems.filter fun g => ids.contains g.id).map (·.id) ⊆ ids.dedup.erase a := by
    intro x hx
    rcases List.mem_map.mp hx with ⟨g, hgmem, rfl⟩
    have hgx := List.mem_filter.mp hgmem
    exact (List.mem_erase_of_ne (hnot g hgx.1)).mpr
      (List.mem_dedup.mpr (List.elem_iff.mp hgx.2))
  have h1 := (hlnd.subperm hss).length_le
  have h2 : (ids.dedup.erase a).length = ids.dedup.length - 1 :=
    List.length_erase_of_mem hadedup
  have h3 : 0 < ids.dedup.length := List.length_pos.mpr (List.ne_nil_of_mem hadedup)
  have h4 : ids.dedup.length ≤ ids.length := (List.dedup_sublist ids).length_le
  have h5 : ((gems.filter fun g => ids.contains g.id).map (·.id)).length
      = (gems.filter fun g => ids.contains g.id).length := List.length_map _ _
  omega

theorem filter_contains_length_eq (gems : List Gem) (ids : List Nat)
    (hnd : (gems.map (·.id)).Nodup) (hids : ids.Nodup)
    (hres : ∀ a ∈ ids, ∃ g ∈ gems, g.id = a) :
    (gems.filter fun g => ids.contains g.id).length = ids.length := by
  have hle : (gems.filter fun g => ids.contains g.id).length ≤ ids.length := by
    have := filter_contains_length_le gems hnd ids
    rwa [List.dedup_eq_self.mpr hids] at this
  have hge : ids.length ≤ (gems.filter fun g => ids.contains g.id).length := by
    have hss : ids ⊆ (gems.filter fun g => ids.contains g.id).map (·.id) := by
      intro a hamem
      rcases hres a hamem with ⟨g, hgmem, rfl⟩
      refine List.mem_map_of_mem (·.id) (List.mem_filter.mpr ⟨hgmem, ?_⟩)
      show ids.contains g.id = true
      exact List.elem_iff.mpr hamem
    have := (hids.subperm hss).length_le
    simpa [List.length_map] using this
  omega


theorem createOrder_not_found_eq (s : State) (u : Nat) (items : List ItemRequest)
    (nid : Nat) (noid : String) (now : Nat)
    (hne : (s.gems.filter fun g => (items.map (·.gemId)).contains g.id).length
            ≠ items.length) :
    createOrder s u items nid noid now
      = (s, [], .failure ⟨400, "One or more gems not found"⟩) := by
  simp only [createOrder]
  rw [if_pos hne]

theorem checkStock_insufficient (gems : List Gem) (items : List ItemRequest)
    (hres : ∀ it ∈ items, ∃ g, gems.find? (fun x => x.id == it.gemId) = some g)
    (hbad : ∃ it ∈ items, ∀ g, gems.find? (fun x => x.id == it.gemId) = some g →
        g.availability = false ∨ g.stock < (it.quantity : ℤ)) :
    ∃ it ∈ items, ∃ g, gems.find? (fun x => x.id == it.gemId) = some g ∧
      (g.availability = false ∨ g.stock < (it.quantity : ℤ)) ∧
      checkStock gems items = some ⟨400, "Insufficient stock for " ++ g.name⟩ := by
  induction items with
  | nil => rcases hbad with ⟨it, hmem, _⟩; cases hmem
  | cons a t ih =>
    obtain ⟨ga, hga⟩ := hres a (List.mem_cons_self a t)
    by_cases hcond : ga.availability = false ∨ ga.stock < (a.quantity : ℤ)
    · have hb : (!ga.availability || decide (ga.stock < (a.quantity : ℤ))) = true := by
        rcases hcond with h | h
        · simp [h]
        · simp [h]
      refine ⟨a, List.mem_cons_self a t, ga, hga, hcond, ?_⟩
      simp [checkStock, hga, hb]
    · push_neg at hcond
      have hav : ga.availability = true := by
        cases hv : ga.availability
        · exact absurd hv hcond.1
        · rfl
      have hb : (!ga.availability || decide (ga.stock < (a.quantity : ℤ))) = false := by
        simp [hav, hcond.2]
      have hstep : checkStock gems (a :: t) = checkStock gems t := by
        simp [checkStock, hga, hb]
      rcases hbad with ⟨it0, hmem0, hforall⟩
      rcases List.mem_cons.mp hmem0 with rfl | hmem0t
      · exact absurd (hforall ga hga) (by push_neg; exact ⟨hcond.1, hcond.2⟩)
      · obtain ⟨it, hmem, g, hfind, hbadg, heq⟩ :=
          ih (fun x hx => hres x (List.mem_cons_of_mem a hx)) ⟨it0, hmem0t, hforall⟩
        exact ⟨it, List.mem_cons_of_mem a hmem, g, hfind, hbadg, hstep ▸ heq⟩


theorem createOrder_success_eq (s : State) (u : Nat) (items : List ItemRequest)
    (nid : Nat) (noid : String) (now : Nat)
    (s' : State) (tr : List Mutation) (resp : OrderSuccess)
    (h : createOrder s u items nid noid now = (s', tr, .success resp)) :
    s' = { gems := s.gems.map fun g =>
             { g with stock := g.stock +
                 (items.map fun it =>
                   if it.gemId = g.id then -(it.quantity : ℤ) else 0).sum },
           cartItems := s.cartItems.filter fun c => c.userId != u,
           orders := s.orders ++ [⟨nid, noid, u, .pending, orderTotal items, now⟩],
           orderItems := s.orderItems ++
             (items.map fun it => ⟨nid, it.gemId, it.quantity, it.price⟩) }
    ∧ tr = .saveOrder ⟨nid, noid, u, .pending, orderTotal items, now⟩ ::
        .insertOrderItems (items.map fun it => ⟨nid, it.gemId, it.quantity, it.price⟩) ::
        (items.map fun it => .decStock it.gemId it.quantity) ++ [.clearCart u]
    ∧ resp = ⟨noid, .pending, orderTotal items, now⟩ := by
  simp only [createOrder] at h
  split at h
  · simp at h
  · split at h
    · simp at h
    · rw [foldl_decStock] at h
      injection h with h1 h23
      injection h23 with h2 h3
      injection h3 with h3
      exact ⟨h1.symm, h2.symm, h3.symm⟩


/-! ## Claim theorems -/

/-- C9: an order whose line list repeats a gem id fails with the
"One or more gems not found" error and performs no mutation, even though
the gem may exist, be available, and have ample stock — the handler
compares the number of distinct gems found against the number of lines. -/
theorem createOrder_duplicate_gemId_fails (s : State) (u : Nat)
    (items : List ItemRequest) (nid : Nat) (noid : String) (now : Nat)
    (hwf : gemsWF s) (hdup : ¬ (items.map (·.gemId)).Nodup) :
    createOrder s u items nid noid now
      = (s, [], .failure ⟨400, "One or more gems not found"⟩) := by
  apply createOrder_not_found_eq
  have h1 := filter_contains_length_le s.gems hwf (items.map (·.gemId))
  have h2 := dedup_length_lt_of_not_nodup _ hdup
  have h3 : (items.map (·.gemId)).length = items.length := List.length_map _ _
  omega

theorem createOrder_duplicate_gemId_fails_witness :
    createOrder ⟨[⟨7, "Ruby", 5, 5, true⟩], [], [], []⟩ 1
        [⟨7, 1, 5⟩, ⟨7, 1, 5⟩] 10 "ORD1" 0
      = (⟨[⟨7, "Ruby", 5, 5, true⟩], [], [], []⟩, [],
          .failure ⟨400, "One or more gems not found"⟩) :=
  createOrder_duplicate_gemId_fails _ _ _ _ _ _ (by unfold gemsWF; decide) (by decide)

/-- C2 counterexample: with an empty catalog, placing an order for an
unresolved gem id returns HTTP 400 (message "One or more gems not found"),
not the HTTP 404 the claim asserts. -/
theorem createOrder_unresolved_gem_status_400 :
    createOrder ⟨[], [], [], []⟩ 1 [⟨7, 1, 5⟩] 10 "ORD1" 0
      = (⟨[], [], [], []⟩, [], .failure ⟨400, "One or more gems not found"⟩)
    ∧ (400 : Nat) ≠ 404 := by
  decide

/-- C2 (amended): when some line's gem id resolves to no catalog gem, the
place-order operation fails before any mutation with HTTP 400 and message
"One or more gems not found" (the handler does not use 404 here). -/
theorem createOrder_unresolved_gem_fails (s : State) (u : Nat)
    (items : List ItemRequest) (nid : Nat) (noid : String) (now : Nat)
    (hwf : gemsWF s)
    (hmiss : ∃ it ∈ items, ∀ g ∈ s.gems, g.id ≠ it.gemId) :
    createOrder s u items nid noid now
      = (s, [], .failure ⟨400, "One or more gems not found"⟩) := by
  apply createOrder_not_found_eq
  rcases hmiss with ⟨it, hmem, hnot⟩
  have hlt := filter_contains_length_lt s.gems (items.map (·.gemId)) hwf it.gemId
    (List.mem_map_of_mem (·.gemId) hmem) hnot
  have h3 : (items.map (·.gemId)).length = items.length := List.length_map _ _
  omega

theorem createOrder_unresolved_gem_fails_witness :
    createOrder ⟨[⟨7, "Ruby", 5, 5, true⟩], [], [], []⟩ 1 [⟨99, 1, 5⟩] 10 "ORD1" 0
      = (⟨[⟨7, "Ruby", 5, 5, true⟩], [], [], []⟩, [],
          .failure ⟨400, "One or more gems not found"⟩) :=
  createOrder_unresolved_gem_fails _ _ _ _ _ _ (by unfold gemsWF; decide) (by decide)

/-- C1 counterexample: a request whose two lines both reference an existing
gem with `availability = false` satisfies the claim's antecedent, yet the
operation returns the "One or more gems not found" failure rather than an
InsufficientStock failure naming the gem. -/
theorem createOrder_unavailable_dup_not_insufficient :
    (⟨8, "Opal", 3, 5, false⟩ : Gem).availability = false
    ∧ createOrder ⟨[⟨8, "Opal", 3, 5, false⟩], [], [], []⟩ 1
        [⟨8, 1, 3⟩, ⟨8, 1, 3⟩] 10 "ORD1" 0
      = (⟨[⟨8, "Opal", 3, 5, false⟩], [], [], []⟩, [],
          .failure ⟨400, "One or more gems not found"⟩)
    ∧ (ErrorResponse.mk 400 "Insufficient stock for Opal"
        ≠ ErrorResponse.mk 400 "One or more gems not found") := by
  decide

/-- C1 (amended): when every line's gem id resolves to an existing gem and
the ids are pairwise distinct, a request containing a line whose gem has
`availability = false` or `stock <` the requested quantity fails with the
"Insufficient stock for name" error naming an offending gem, with no
mutation performed. -/
theorem createOrder_insufficient_stock_fails (s : State) (u : Nat)
    (items : List ItemRequest) (nid : Nat) (noid : String) (now : Nat)
    (hwf : gemsWF s)
    (hids : (items.map (·.gemId)).Nodup)
    (hres : ∀ it ∈ items, ∃ g ∈ s.gems, g.id = it.gemId)
    (hbad : ∃ it ∈ items, ∀ g ∈ s.gems, g.id = it.gemId →
        g.availability = false ∨ g.stock < (it.quantity : ℤ)) :
    ∃ it ∈ items, ∃ g ∈ s.gems, g.id = it.gemId ∧
      (g.availability = false ∨ g.stock < (it.quantity : ℤ)) ∧
      createOrder s u items nid noid now
        = (s, [], .failure ⟨400, "Insufficient stock for " ++ g.name⟩) := by
  have hlen : (s.gems.filter fun g => (items.map (·.gemId)).contains g.id).length
      = items.length := by
    have := filter_contains_length_eq s.gems (items.map (·.gemId)) hwf hids
      (by
        intro a ha
        rcases List.mem_map.mp ha with ⟨it, hit, rfl⟩
        exact hres it hit)
    have h3 : (items.map (·.gemId)).length = items.length := List.length_map _ _
    omega
  have hres' : ∀ it ∈ items,
      ∃ g, (s.gems.filter fun g => (items.map (·.gemId)).contains g.id).find?
        (fun x => x.id == it.gemId) = some g := by
    intro it hit
    rcases hres it hit with ⟨g, hg, hgid⟩
    have hmemf : g ∈ s.gems.filter fun g => (items.map (·.gemId)).contains g.id := by
      refine List.mem_filter.mpr ⟨hg, ?_⟩
      show (items.map (·.gemId)).contains g.id = true
      exact List.elem_iff.mpr (hgid ▸ List.mem_map_of_mem (·.gemId) hit)
    have hs : ((s.gems.filter fun g => (items.map (·.gemId)).contains g.id).find?
        (fun x => x.id == it.gemId)).isSome := by
      rw [List.find?_isSome]
      exact ⟨g, hmemf, by simp [hgid]⟩
    rcases Option.isSome_iff_exists.mp hs with ⟨g', hg'⟩
    exact ⟨g', hg'⟩
  have hbad' : ∃ it ∈ items,
      ∀ g, (s.gems.filter fun g => (items.map (·.gemId)).contains g.id).find?
        (fun x => x.id == it.gemId) = some g →
        g.availability = false ∨ g.stock < (it.quantity : ℤ) := by
    rcases hbad with ⟨it, hit, hforall⟩
    refine ⟨it, hit, fun g hfind => ?_⟩
    have hgs : g ∈ s.gems := (List.mem_filter.mp (List.mem_of_find?_eq_some hfind)).1
    have hid : g.id = it.gemId := by simpa using List.find?_some hfind
    exact hforall g hgs hid
  obtain ⟨it, hmem, g, hfind, hbadg, heq⟩ :=
    checkStock_insufficient _ items hres' hbad'
  have hgs : g ∈ s.gems := (List.mem_filter.mp (List.mem_of_find?_eq_some hfind)).1
  have hid : g.id = it.gemId := by simpa using List.find?_some hfind
  refine ⟨it, hmem, g, hgs, hid, hbadg, ?_⟩
  simp only [createOrder]
  rw [if_neg (fun hcon => hcon hlen), heq]

theorem createOrder_insufficient_stock_fails_witness :
    createOrder ⟨[⟨7, "Ruby", 5, 2, true⟩], [], [], []⟩ 1 [⟨7, 3, 5⟩] 10 "ORD1" 0
      = (⟨[⟨7, "Ruby", 5, 2, true⟩], [], [], []⟩, [],
          .failure ⟨400, "Insufficient stock for Ruby"⟩) := by
  obtain ⟨it, hmem, g, hgs, hid, hbadg, heq⟩ :=
    createOrder_insufficient_stock_fails ⟨[⟨7, "Ruby", 5, 2, true⟩], [], [], []⟩ 1
      [⟨7, 3, 5⟩] 10 "ORD1" 0 (by unfold gemsWF; decide) (by decide) (by decide) (by decide)
  have hg : g = ⟨7, "Ruby", 5, 2, true⟩ := List.mem_singleton.mp hgs
  subst hg
  exact heq



/-- C3: a validated order is persisted with status `pending`, its total is
the sum over request lines of the client-supplied price times quantity
(never re-derived from the catalog), and the success payload carries the
order identifier, status, total and creation timestamp. -/
theorem createOrder_success_spec (s : State) (u : Nat) (items : List ItemRequest)
    (nid : Nat) (noid : String) (now : Nat)
    (s' : State) (tr : List Mutation) (resp : OrderSuccess)
    (h : createOrder s u items nid noid now = (s', tr, .success resp)) :
    ∃ o ∈ s'.orders, o.id = nid ∧ o.orderId = noid ∧ o.status = .pending ∧
      o.total = (items.map fun it => it.price * (it.quantity : ℚ)).sum ∧
      o.createdAt = now ∧
      resp = ⟨o.orderId, o.status, o.total, o.createdAt⟩ := by
  obtain ⟨h1, h2, h3⟩ := createOrder_success_eq _ _ _ _ _ _ _ _ _ h
  refine ⟨⟨nid, noid, u, .pending, orderTotal items, now⟩, ?_, rfl, rfl, rfl, ?_, rfl, ?_⟩
  · rw [h1]; simp
  · simp [orderTotal_eq_sum]
  · rw [h3]

theorem createOrder_success_spec_witness :
    ∃ o ∈ (⟨[⟨7, "Ruby", 5, 2, true⟩], [],
        [⟨10, "ORD1", 1, .pending, 15, 42⟩], [⟨10, 7, 3, 5⟩]⟩ : State).orders,
      o.id = 10 ∧ o.orderId = "ORD1" ∧ o.status = .pending ∧
      o.total = (([⟨7, 3, 5⟩] : List ItemRequest).map
          fun it => it.price * (it.quantity : ℚ)).sum ∧
      o.createdAt = 42 ∧
      (⟨"ORD1", .pending, 15, 42⟩ : OrderSuccess)
        = ⟨o.orderId, o.status, o.total, o.createdAt⟩ :=
  createOrder_success_spec ⟨[⟨7, "Ruby", 5, 5, true⟩], [], [], []⟩ 1
    [⟨7, 3, 5⟩] 10 "ORD1" 42
    ⟨[⟨7, "Ruby", 5, 2, true⟩], [], [⟨10, "ORD1", 1, .pending, 15, 42⟩], [⟨10, 7, 3, 5⟩]⟩
    [.saveOrder ⟨10, "ORD1", 1, .pending, 15, 42⟩,
      .insertOrderItems [⟨10, 7, 3, 5⟩], .decStock 7 3, .clearCart 1]
    ⟨"ORD1", .pending, 15, 42⟩
    (by norm_num [createOrder, checkStock, orderTotal, adjustGemStock])

/-- C4: on the success path the writes happen in the stated order — order
header first, then the order lines, then one stock decrement per line,
then the full cart clear — the final state is exactly the fold of that
write list over the initial state, and every stock decrement sits strictly
after the header and line inserts and strictly before the cart clear. -/
theorem createOrder_mutation_order (s : State) (u : Nat) (items : List ItemRequest)
    (nid : Nat) (noid : String) (now : Nat)
    (s' : State) (tr : List Mutation) (resp : OrderSuccess)
    (h : createOrder s u items nid noid now = (s', tr, .success resp)) :
    ∃ o ls, tr = .saveOrder o :: .insertOrderItems ls ::
        (items.map fun it => .decStock it.gemId it.quantity) ++ [.clearCart u]
      ∧ ls.length = items.length
      ∧ s' = tr.foldl applyMutation s
      ∧ (∀ i g q, tr[i]? = some (.decStock g q) → 2 ≤ i ∧ i < items.length + 2)
      ∧ tr[items.length + 2]? = some (.clearCart u) := by
  obtain ⟨h1, h2, h3⟩ := createOrder_success_eq _ _ _ _ _ _ _ _ _ h
  refine ⟨⟨nid, noid, u, .pending, orderTotal items, now⟩,
    items.map (fun it => ⟨nid, it.gemId, it.quantity, it.price⟩), h2, by simp, ?_, ?_, ?_⟩
  · rw [h1, h2]
    simp [applyMutation, List.foldl_append, List.foldl_map, foldl_decStock]
  · intro i g q hi
    rw [h2] at hi
    simp only [List.cons_append] at hi
    rcases i with _ | i
    · simp at hi
    rcases i with _ | n
    · simp at hi
    refine ⟨by omega, ?_⟩
    simp only [Nat.succ_eq_add_one, List.getElem?_cons_succ] at hi
    by_contra hge
    have hlen : (items.map fun it => Mutation.decStock it.gemId it.quantity).length ≤ n := by
      simp only [List.length_map]; omega
    rw [List.getElem?_append_right hlen] at hi
    rcases hk : n - (items.map fun it => Mutation.decStock it.gemId it.quantity).length
      with _ | m
    · rw [hk] at hi; simp at hi
    · rw [hk] at hi; simp at hi
  · rw [h2]
    simp only [List.cons_append]
    have hstep : items.length + 2 = (items.length + 1) + 1 := by omega
    rw [hstep]
    simp only [List.getElem?_cons_succ]
    have hml : (items.map fun it => Mutation.decStock it.gemId it.quantity).length
        = items.length := List.length_map _ _
    rw [← hml, List.getElem?_concat_length]

theorem createOrder_mutation_order_witness :
    ∃ o ls,
      ([.saveOrder ⟨10, "ORD1", 1, .pending, 15, 42⟩,
        .insertOrderItems [⟨10, 7, 3, 5⟩], .decStock 7 3, .clearCart 1] : List Mutation)
        = .saveOrder o :: .insertOrderItems ls ::
            (([⟨7, 3, 5⟩] : List ItemRequest).map fun it =>
              Mutation.decStock it.gemId it.quantity) ++ [.clearCart 1]
      ∧ ls.length = ([⟨7, 3, 5⟩] : List ItemRequest).length
      ∧ (⟨[⟨7, "Ruby", 5, 2, true⟩], [],
          [⟨10, "ORD1", 1, .pending, 15, 42⟩], [⟨10, 7, 3, 5⟩]⟩ : State)
        = ([.saveOrder ⟨10, "ORD1", 1, .pending, 15, 42⟩,
            .insertOrderItems [⟨10, 7, 3, 5⟩], .decStock 7 3,
            .clearCart 1] : List Mutation).foldl applyMutation
              ⟨[⟨7, "Ruby", 5, 5, true⟩], [⟨1, 7, 2⟩], [], []⟩
      ∧ (∀ i g q, ([.saveOrder ⟨10, "ORD1", 1, .pending, 15, 42⟩,
            .insertOrderItems [⟨10, 7, 3, 5⟩], .decStock 7 3,
            .clearCart 1] : List Mutation)[i]? = some (.decStock g q) →
            2 ≤ i ∧ i < ([⟨7, 3, 5⟩] : List ItemRequest).length + 2)
      ∧ ([.saveOrder ⟨10, "ORD1", 1, .pending, 15, 42⟩,
          .insertOrderItems [⟨10, 7, 3, 5⟩], .decStock 7 3,
          .clearCart 1] : List Mutation)[([⟨7, 3, 5⟩] : List ItemRequest).length + 2]?
          = some (.clearCart 1) := by
  have hcart : createOrder ⟨[⟨7, "Ruby", 5, 5, true⟩], [⟨1, 7, 2⟩], [], []⟩ 1
      [⟨7, 3, 5⟩] 10 "ORD1" 42
      = (⟨[⟨7, "Ruby", 5, 2, true⟩], [],
          [⟨10, "ORD1", 1, .pending, 15, 42⟩], [⟨10, 7, 3, 5⟩]⟩,
         [.saveOrder ⟨10, "ORD1", 1, .pending, 15, 42⟩,
          .insertOrderItems [⟨10, 7, 3, 5⟩], .decStock 7 3, .clearCart 1],
         .success ⟨"ORD1", .pending, 15, 42⟩) := by
    norm_num [createOrder, checkStock, orderTotal, adjustGemStock]
  exact createOrder_mutation_order _ _ _ _ _ _ _ _ _ hcart


/-- C6: cancelling an already-cancelled order fails with the
"already cancelled" message, cancelling a shipped or delivered order fails
with the invalid-transition message — both leaving the state untouched —
and a successful cancellation can only start from `pending`, `confirmed`
or `processing`. -/
theorem cancelOrder_guards (s : State) (u : Nat) (oid : String) (order : Order)
    (hfind : findOrder s u oid = some order) :
    (order.status = .cancelled →
      cancelOrder s u oid = (s, .failure ⟨400, "Order is already cancelled"⟩))
    ∧ ((order.status = .shipped ∨ order.status = .delivered) →
      cancelOrder s u oid
        = (s, .failure ⟨400, "Cannot cancel order that has been shipped or delivered"⟩))
    ∧ (∀ s' m, cancelOrder s u oid = (s', .success m) →
      order.status = .pending ∨ order.status = .confirmed ∨ order.status = .processing) := by
  refine ⟨?_, ?_, ?_⟩
  · intro hc
    simp [cancelOrder, hfind, hc]
  · intro hsd
    rcases hsd with h | h <;> simp [cancelOrder, hfind, h]
  · intro s' m hC
    cases hst : order.status
    case pending => exact Or.inl rfl
    case confirmed => exact Or.inr (Or.inl rfl)
    case processing => exact Or.inr (Or.inr rfl)
    case shipped => simp [cancelOrder, hfind, hst] at hC
    case delivered => simp [cancelOrder, hfind, hst] at hC
    case cancelled => simp [cancelOrder, hfind, hst] at hC

theorem cancelOrder_guards_witness :
    ((Order.mk 10 "ORD1" 1 .cancelled 15 42).status = .cancelled →
      cancelOrder ⟨[], [], [⟨10, "ORD1", 1, .cancelled, 15, 42⟩], []⟩ 1 "ORD1"
        = (⟨[], [], [⟨10, "ORD1", 1, .cancelled, 15, 42⟩], []⟩,
            .failure ⟨400, "Order is already cancelled"⟩))
    ∧ (((Order.mk 10 "ORD1" 1 .cancelled 15 42).status = .shipped ∨
        (Order.mk 10 "ORD1" 1 .cancelled 15 42).status = .delivered) →
      cancelOrder ⟨[], [], [⟨10, "ORD1", 1, .cancelled, 15, 42⟩], []⟩ 1 "ORD1"
        = (⟨[], [], [⟨10, "ORD1", 1, .cancelled, 15, 42⟩], []⟩,
            .failure ⟨400, "Cannot cancel order that has been shipped or delivered"⟩))
    ∧ (∀ s' m, cancelOrder ⟨[], [], [⟨10, "ORD1", 1, .cancelled, 15, 42⟩], []⟩ 1 "ORD1"
          = (s', .success m) →
      (Order.mk 10 "ORD1" 1 .cancelled 15 42).status = .pending ∨
      (Order.mk 10 "ORD1" 1 .cancelled 15 42).status = .confirmed ∨
      (Order.mk 10 "ORD1" 1 .cancelled 15 42).status = .processing) :=
  cancelOrder_guards ⟨[], [], [⟨10, "ORD1", 1, .cancelled, 15, 42⟩], []⟩ 1 "ORD1"
    ⟨10, "ORD1", 1, .cancelled, 15, 42⟩ (by decide)

/-- C7: fetching or cancelling an order whose owner differs from the
requesting user yields exactly the 404 "Order not found" reply produced
when no such order exists, so foreign orders are indistinguishable from
missing ones. -/
theorem order_ownership_isolation (s : State) (u : Nat) (oid : String)
    (h : ∀ o ∈ s.orders, o.orderId = oid → o.userId ≠ u) :
    getOrder s u oid = .failure ⟨404, "Order not found"⟩
    ∧ cancelOrder s u oid = (s, .failure ⟨404, "Order not found"⟩) := by
  have hfind : findOrder s u oid = none := by
    rw [findOrder, List.find?_eq_none]
    intro o ho hcon
    rw [Bool.and_eq_true] at hcon
    exact h o ho (beq_iff_eq.mp hcon.1) (beq_iff_eq.mp hcon.2)
  exact ⟨by simp [getOrder, hfind], by simp [cancelOrder, hfind]⟩

theorem order_ownership_isolation_witness :
    getOrder ⟨[], [], [⟨10, "ORD1", 2, .pending, 15, 42⟩], []⟩ 1 "ORD1"
      = .failure ⟨404, "Order not found"⟩
    ∧ cancelOrder ⟨[], [], [⟨10, "ORD1", 2, .pending, 15, 42⟩], []⟩ 1 "ORD1"
      = (⟨[], [], [⟨10, "ORD1", 2, .pending, 15, 42⟩], []⟩,
          .failure ⟨404, "Order not found"⟩) :=
  order_ownership_isolation _ _ _ (by decide)

/-- C10: a login with an unknown email and a login with a known email but a
failing password comparison produce the identical reply — HTTP 401,
`success: false`, message "Invalid credentials", no token and no user
payload — for every password comparator and token generator. -/
theorem login_uniform_invalid_credentials (users : List User)
    (compare : String → String → Bool) (genToken : Nat → String)
    (e1 p1 e2 p2 : String) (u : User)
    (h1 : ∀ v ∈ users, v.email ≠ e1)
    (h2 : users.find? (fun v => v.email == e2) = some u)
    (h3 : compare p2 u.password = false) :
    login users compare genToken e1 p1 = login users compare genToken e2 p2
    ∧ login users compare genToken e1 p1
      = ⟨401, false, "Invalid credentials", none, none⟩ := by
  have hn : users.find? (fun v => v.email == e1) = none := by
    rw [List.find?_eq_none]
    intro v hv hcon
    exact h1 v hv (beq_iff_eq.mp hcon)
  exact ⟨by simp [login, hn, h2, h3], by simp [login, hn]⟩

theorem login_uniform_invalid_credentials_witness :
    login [⟨1, "a@b.c", "hash"⟩] (fun p h => p == h) (fun _ => "tok") "x@y.z" "pw"
      = login [⟨1, "a@b.c", "hash"⟩] (fun p h => p == h) (fun _ => "tok") "a@b.c" "wrong"
    ∧ login [⟨1, "a@b.c", "hash"⟩] (fun p h => p == h) (fun _ => "tok") "x@y.z" "pw"
      = ⟨401, false, "Invalid credentials", none, none⟩ :=
  login_uniform_invalid_credentials [⟨1, "a@b.c", "hash"⟩] (fun p h => p == h)
    (fun _ => "tok") "x@y.z" "pw" "a@b.c" "wrong" ⟨1, "a@b.c", "hash"⟩
    (by decide) (by decide) (by decide)


theorem updateFirst_map_pair (p : CartItem → Bool) (f : CartItem → CartItem)
    (hf : ∀ c, ((f c).userId, (f c).gemId) = (c.userId, c.gemId)) (l : List CartItem) :
    ((updateFirst p f l).map fun c => (c.userId, c.gemId))
      = l.map fun c => (c.userId, c.gemId) := by
  induction l with
  | nil => rfl
  | cons c t ih =>
    by_cases h : p c
    · simp [updateFirst, h, hf]
    · simp [updateFirst, h, ih]

theorem updateFirst_eq_map_of_unique (u gid q : Nat) (l : List CartItem)
    (hwf : cartWF l) (c0 : CartItem) (hc0 : c0 ∈ l)
    (hpair : c0.userId = u ∧ c0.gemId = gid) :
    updateFirst (fun c => c.userId == u && c.gemId == gid)
        (fun c => { c with quantity := c.quantity + q }) l
      = l.map fun d => if d.userId = u ∧ d.gemId = gid
          then { d with quantity := d.quantity + q } else d := by
  induction l with
  | nil => cases hc0
  | cons h t ih =>
    rw [cartWF, List.map_cons, List.nodup_cons] at hwf
    by_cases hph : h.userId = u ∧ h.gemId = gid
    · have hb : (h.userId == u && h.gemId == gid) = true := by
        simp [hph.1, hph.2]
      have hnone : ∀ d ∈ t, ¬(d.userId = u ∧ d.gemId = gid) := by
        intro d hd hcon
        apply hwf.1
        have : (h.userId, h.gemId) = (d.userId, d.gemId) := by
          rw [hph.1, hph.2, hcon.1, hcon.2]
        rw [this]
        exact List.mem_map_of_mem (fun c => (c.userId, c.gemId)) hd
      simp only [updateFirst, hb, if_true, List.map_cons, if_pos hph]
      congr 1
      conv_lhs => rw [← List.map_id t]
      apply List.map_congr_left
      intro d hd
      rw [if_neg (hnone d hd)]
      rfl
    · have hb : (h.userId == u && h.gemId == gid) = false := by
        rcases not_and_or.mp hph with h1 | h1
        · simp [beq_eq_false_iff_ne.mpr h1]
        · simp [beq_eq_false_iff_ne.mpr h1]
      rcases List.mem_cons.mp hc0 with rfl | hc0t
      · exact absurd hpair hph
      simp only [updateFirst, hb, Bool.false_eq_true, if_false, List.map_cons, if_neg hph]
      exact congrArg _ (ih hwf.2 hc0t)

/-- C8: a successful add-to-cart preserves the at-most-one-item-per
(user, gem) invariant; when the pair is absent a fresh item with the
requested quantity is appended, and when it is present that item's
quantity is incremented in place — no duplicate entry is created. -/
theorem addToCart_increment_or_create (s : State) (u gid q : Nat)
    (s' : State) (c : CartItem)
    (hwf : cartWF s.cartItems)
    (h : addToCart s u gid q = (s', .success c)) :
    cartWF s'.cartItems
    ∧ ((∀ c0 ∈ s.cartItems, ¬(c0.userId = u ∧ c0.gemId = gid)) →
      s'.cartItems = s.cartItems ++ [⟨u, gid, q⟩] ∧ c = ⟨u, gid, q⟩)
    ∧ (∀ c0 ∈ s.cartItems, c0.userId = u → c0.gemId = gid →
      s'.cartItems = (s.cartItems.map fun d =>
        if d.userId = u ∧ d.gemId = gid
        then { d with quantity := d.quantity + q } else d)
      ∧ c.userId = u ∧ c.gemId = gid ∧ c.quantity = c0.quantity + q) := by
  simp only [addToCart] at h
  split at h
  · simp at h
  · split at h
    · simp at h
    · split at h
      case _ c1 hfind =>
        have hc1mem : c1 ∈ s.cartItems := List.mem_of_find?_eq_some hfind
        have hc1pair : c1.userId = u ∧ c1.gemId = gid := by
          have := List.find?_some hfind
          rw [Bool.and_eq_true] at this
          exact ⟨beq_iff_eq.mp this.1, beq_iff_eq.mp this.2⟩
        injection h with h1 h2
        injection h2 with h2
        refine ⟨?_, ?_, ?_⟩
        · rw [← h1]
          show ((updateFirst (fun c => c.userId == u && c.gemId == gid)
            (fun c => { c with quantity := c.quantity + q })
            s.cartItems).map fun c => (c.userId, c.gemId)).Nodup
          rw [updateFirst_map_pair (fun c => c.userId == u && c.gemId == gid)
            (fun c => { c with quantity := c.quantity + q }) (fun c => rfl)]
          exact hwf
        · intro hno
          exact absurd hc1pair (hno c1 hc1mem)
        · intro c0 hc0 hcu hcg
          have hceq : c0 = c1 :=
            List.inj_on_of_nodup_map hwf hc0 hc1mem
              (by rw [hcu, hcg, hc1pair.1, hc1pair.2])
          refine ⟨?_, ?_, ?_, ?_⟩
          · rw [← h1]
            show updateFirst _ _ s.cartItems = _
            exact updateFirst_eq_map_of_unique u gid q s.cartItems hwf c1 hc1mem hc1pair
          · rw [← h2]; exact hc1pair.1
          · rw [← h2]; exact hc1pair.2
          · rw [← h2, hceq]
      case _ hfind =>
        have hno : ∀ d ∈ s.cartItems, ¬(d.userId = u ∧ d.gemId = gid) := by
          intro d hd hcon
          have := List.find?_eq_none.mp hfind d hd
          rw [Bool.and_eq_true] at this
          exact this ⟨beq_iff_eq.mpr hcon.1, beq_iff_eq.mpr hcon.2⟩
        injection h with h1 h2
        injection h2 with h2
        refine ⟨?_, ?_, ?_⟩
        · rw [← h1]
          show ((s.cartItems ++ [(⟨u, gid, q⟩ : CartItem)]).map fun c => (c.userId, c.gemId)).Nodup
          rw [List.map_append]
          refine List.Nodup.append hwf (by simp) ?_
          intro x hx hx2
          rcases List.mem_map.mp hx with ⟨d, hd, rfl⟩
          simp only [List.map_cons, List.map_nil, List.mem_singleton] at hx2
          have hx3 := Prod.ext_iff.mp hx2
          exact hno d hd ⟨hx3.1, hx3.2⟩
        · intro _
          constructor
          · rw [← h1]
          · rw [← h2]
        · intro c0 hc0 hcu hcg
          exact absurd ⟨hcu, hcg⟩ (hno c0 hc0)

theorem addToCart_increment_or_create_witness :
    cartWF (⟨[⟨7, "Ruby", 5, 5, true⟩], [⟨1, 7, 5⟩], [], []⟩ : State).cartItems
    ∧ ((∀ c0 ∈ (⟨[⟨7, "Ruby", 5, 5, true⟩], [⟨1, 7, 2⟩], [], []⟩ : State).cartItems,
          ¬(c0.userId = 1 ∧ c0.gemId = 7)) →
      (⟨[⟨7, "Ruby", 5, 5, true⟩], [⟨1, 7, 5⟩], [], []⟩ : State).cartItems
        = (⟨[⟨7, "Ruby", 5, 5, true⟩], [⟨1, 7, 2⟩], [], []⟩ : State).cartItems ++ [⟨1, 7, 3⟩]
      ∧ (⟨1, 7, 5⟩ : CartItem) = ⟨1, 7, 3⟩)
    ∧ (∀ c0 ∈ (⟨[⟨7, "Ruby", 5, 5, true⟩], [⟨1, 7, 2⟩], [], []⟩ : State).cartItems,
        c0.userId = 1 → c0.gemId = 7 →
      (⟨[⟨7, "Ruby", 5, 5, true⟩], [⟨1, 7, 5⟩], [], []⟩ : State).cartItems
        = ((⟨[⟨7, "Ruby", 5, 5, true⟩], [⟨1, 7, 2⟩], [], []⟩ : State).cartItems.map fun d =>
            if d.userId = 1 ∧ d.gemId = 7
            then { d with quantity := d.quantity + 3 } else d)
      ∧ (⟨1, 7, 5⟩ : CartItem).userId = 1 ∧ (⟨1, 7, 5⟩ : CartItem).gemId = 7
      ∧ (⟨1, 7, 5⟩ : CartItem).quantity = c0.quantity + 3) :=
  addToCart_increment_or_create ⟨[⟨7, "Ruby", 5, 5, true⟩], [⟨1, 7, 2⟩], [], []⟩ 1 7 3
    ⟨[⟨7, "Ruby", 5, 5, true⟩], [⟨1, 7, 5⟩], [], []⟩ ⟨1, 7, 5⟩
    (by unfold cartWF; decide) (by decide)


theorem sum_if_neg_cancel (l : List ItemRequest) (gid : Nat) :
    (l.map fun it => if it.gemId = gid then -(it.quantity : ℤ) else 0).sum
      + (l.map fun it => if it.gemId = gid then (it.quantity : ℤ) else 0).sum = 0 := by
  induction l with
  | nil => simp
  | cons a t ih =>
    simp only [List.map_cons, List.sum_cons]
    by_cases h : a.gemId = gid
    · simp only [h, if_true]
      omega
    · simp only [h, if_false]
      omega

theorem cancelOrder_pending_restore (S : State) (u : Nat) (noid : String) (nid : Nat)
    (order : Order) (NI : List OrderItem)
    (hfind : findOrder S u noid = some order)
    (hid : order.id = nid) (hst : order.status = .pending)
    (hfilter : S.orderItems.filter (fun it => it.orderId == nid) = NI) :
    cancelOrder S u noid
      = ({ S with
            orders := S.orders.map fun o =>
              if o.id = nid then { o with status := .cancelled } else o,
            gems := NI.foldl
              (fun gs it => adjustGemStock gs it.gemId (it.quantity : ℤ)) S.gems },
         .success "Order cancelled successfully") := by
  simp [cancelOrder, hfind, hst, hid, hfilter]


/-- C5: after a successful placement, and after arbitrary unrelated
pointwise stock changes `δ`, cancelling the new order succeeds and leaves
every catalog gem at its pre-placement stock plus exactly `δ` — the
restore adds back precisely the quantities recorded on the order lines,
inverting the decrement performed at placement. -/
theorem place_then_cancel_restores_stock (s : State) (u : Nat)
    (items : List ItemRequest) (nid : Nat) (noid : String) (now : Nat)
    (δ : Nat → ℤ) (s1 : State) (tr : List Mutation) (resp : OrderSuccess)
    (hwf : gemsWF s)
    (hfresh : ∀ o ∈ s.orders, o.orderId ≠ noid)
    (hitems : ∀ it ∈ s.orderItems, it.orderId ≠ nid)
    (hplace : createOrder s u items nid noid now = (s1, tr, .success resp)) :
    ∃ s3, cancelOrder (adjustStocks s1 δ) u noid
        = (s3, .success "Order cancelled successfully")
      ∧ ∀ g ∈ s.gems, stockOf s3 g.id = some (g.stock + δ g.id) := by
  obtain ⟨h1, h2, h3⟩ := createOrder_success_eq _ _ _ _ _ _ _ _ _ hplace
  have hordersS : (adjustStocks s1 δ).orders
      = s.orders ++ [⟨nid, noid, u, .pending, orderTotal items, now⟩] := by
    have hrfl : (adjustStocks s1 δ).orders = s1.orders := rfl
    rw [hrfl, h1]
  have hfind : findOrder (adjustStocks s1 δ) u noid
      = some ⟨nid, noid, u, .pending, orderTotal items, now⟩ := by
    rw [findOrder, hordersS, List.find?_append]
    have hnone : s.orders.find? (fun o => o.orderId == noid && o.userId == u) = none := by
      rw [List.find?_eq_none]
      intro o ho hcon
      rw [Bool.and_eq_true] at hcon
      exact hfresh o ho (beq_iff_eq.mp hcon.1)
    rw [hnone]
    simp [List.find?_cons]
  have horderItemsS : (adjustStocks s1 δ).orderItems
      = s.orderItems
        ++ items.map (fun it => (⟨nid, it.gemId, it.quantity, it.price⟩ : OrderItem)) := by
    have hrfl : (adjustStocks s1 δ).orderItems = s1.orderItems := rfl
    rw [hrfl, h1]
  have hfilter : (adjustStocks s1 δ).orderItems.filter (fun it => it.orderId == nid)
      = items.map (fun it => (⟨nid, it.gemId, it.quantity, it.price⟩ : OrderItem)) := by
    rw [horderItemsS, List.filter_append]
    have hof : s.orderItems.filter (fun it => it.orderId == nid) = [] := by
      rw [List.filter_eq_nil_iff]
      intro it hit hcon
      exact hitems it hit (beq_iff_eq.mp hcon)
    have hnf : (items.map (fun it => (⟨nid, it.gemId, it.quantity, it.price⟩ : OrderItem))).filter
        (fun it => it.orderId == nid)
        = items.map (fun it => (⟨nid, it.gemId, it.quantity, it.price⟩ : OrderItem)) := by
      rw [List.filter_eq_self]
      intro a ha
      rcases List.mem_map.mp ha with ⟨x, hx, rfl⟩
      simp
    rw [hof, hnf, List.nil_append]
  have hC := cancelOrder_pending_restore (adjustStocks s1 δ) u noid nid
    ⟨nid, noid, u, .pending, orderTotal items, now⟩
    (items.map (fun it => (⟨nid, it.gemId, it.quantity, it.price⟩ : OrderItem)))
    hfind rfl rfl hfilter
  refine ⟨_, hC, ?_⟩
  intro g hg
  show (((items.map (fun it => (⟨nid, it.gemId, it.quantity, it.price⟩ : OrderItem))).foldl
      (fun gs it => adjustGemStock gs it.gemId (it.quantity : ℤ))
      ((adjustStocks s1 δ).gems)).find? (fun x => x.id == g.id)).map (·.stock)
    = some (g.stock + δ g.id)
  have hgemsS : (adjustStocks s1 δ).gems
      = List.map (fun (g : Gem) => { g with stock := g.stock + δ g.id })
          (List.map (fun (g : Gem) => { g with stock := g.stock
            + (List.map (fun (it : ItemRequest) =>
                if it.gemId = g.id then -(it.quantity : ℤ) else 0) items).sum }) s.gems) := by
    have hrfl : (adjustStocks s1 δ).gems
        = s1.gems.map (fun g => { g with stock := g.stock + δ g.id }) := rfl
    rw [hrfl, h1]
  rw [foldl_incStock, hgemsS]
  rw [find?_map_id_preserving]
  rw [find?_map_id_preserving]
  rw [find?_map_id_preserving]
  rw [find?_id_of_mem_nodup s.gems hwf g hg]
  · simp only [Option.map_some']
    rw [Option.some.injEq]
    show ((g.stock
        + (List.map (fun (it : ItemRequest) =>
            if it.gemId = g.id then -(it.quantity : ℤ) else 0) items).sum) + δ g.id)
        + (List.map (fun (it : OrderItem) =>
            if it.gemId = g.id then (it.quantity : ℤ) else 0)
          (List.map (fun (it : ItemRequest) =>
            ({ orderId := nid, gemId := it.gemId, quantity := it.quantity,
               price := it.price } : OrderItem)) items)).sum
      = g.stock + δ g.id
    rw [List.map_map]
    have hBeq : List.map ((fun (it : OrderItem) =>
          if it.gemId = g.id then (it.quantity : ℤ) else 0)
        ∘ (fun (it : ItemRequest) =>
          ({ orderId := nid, gemId := it.gemId, quantity := it.quantity,
             price := it.price } : OrderItem))) items
        = List.map (fun (it : ItemRequest) =>
          if it.gemId = g.id then (it.quantity : ℤ) else 0) items :=
      List.map_congr_left fun x _ => rfl
    rw [hBeq]
    have hcancel := sum_if_neg_cancel items g.id
    omega
  · exact fun _ => rfl
  · exact fun _ => rfl
  · exact fun _ => rfl


theorem place_then_cancel_restores_stock_witness :
    ∃ s3, cancelOrder (adjustStocks
        ⟨[⟨7, "Ruby", 5, 2, true⟩], [], [⟨10, "ORD1", 1, .pending, 15, 42⟩], [⟨10, 7, 3, 5⟩]⟩
        (fun _ => 2)) 1 "ORD1"
      = (s3, .success "Order cancelled successfully")
    ∧ ∀ g ∈ (⟨[⟨7, "Ruby", 5, 5, true⟩], [], [], []⟩ : State).gems,
        stockOf s3 g.id = some (g.stock + 2) :=
  place_then_cancel_restores_stock ⟨[⟨7, "Ruby", 5, 5, true⟩], [], [], []⟩ 1
    [⟨7, 3, 5⟩] 10 "ORD1" 42 (fun _ => 2)
    ⟨[⟨7, "Ruby", 5, 2, true⟩], [], [⟨10, "ORD1", 1, .pending, 15, 42⟩], [⟨10, 7, 3, 5⟩]⟩
    [.saveOrder ⟨10, "ORD1", 1, .pending, 15, 42⟩,
      .insertOrderItems [⟨10, 7, 3, 5⟩], .decStock 7 3, .clearCart 1]
    ⟨"ORD1", .pending, 15, 42⟩
    (by unfold gemsWF; decide) (by decide) (by decide)
    (by norm_num [createOrder, checkStock, orderTotal, adjustGemStock])

end GemsBackend
